import Mathlib

/-!
Shallow embedding of the xdi dependency-injection container
(construction layer → scope layer → mapping layer) together with proofs
about its resolution pipeline.

Rust sources embedded here:
  src/types/type_info.rs        → `TypeInfo`
  src/types/error.rs            → `ServiceBuildError`
  src/types/boxed_service.rs    → `BoxedService`
  src/types/boxed_service_sync.rs → `SyncBoxedService`
  src/layers/service.rs         → `ServiceDescriptior`, `ServiceLayer`
  src/layers/scope/singleton.rs → `SingletoneProducer`
  src/layers/scope/task_local.rs → `TaskLocalProducer`, `TaskLocalCtx.get`
  src/layers/scope/thread_local.rs → `ThreadLocalProducer`, `ThreadLocalCtx.get`
  src/layers/scope/mod.rs       → `Scope`, `ServiceScopeDescriptior`, `ScopeLayer`
  src/layers/mapping.rs         → `MappingDescriptor`, `MappingLayer`
  src/builder.rs                → `SimpleDiBuilder`

Rust's interior mutability (mutexes in the scope map, the per-thread and
per-task registries) is modelled by explicit state passing: every layer
operation returns its result together with the updated layer and context.
Machine effects that are not values (an `assert_eq!` failure, the
`unreachable!` in the singleton producer) are modelled by the `Outcome.fatal`
constructor.  A ghost call log (`Ctx.calls`) records every factory
invocation so that "the factory executes exactly once" is observable.
-/

/-- `TypeInfo` from src/types/type_info.rs: stable identity plus diagnostic
name.  Equality and hashing in the source use only `id`; every comparison in
this embedding therefore compares the `id` fields. -/
structure TypeInfo where
  id : Nat
  name : String
  deriving DecidableEq, Repr

/-- Heap-like values held by services.  `ref c` stands for a reference-style
value (an `Arc`/`Rc`) whose `clone` shares the underlying cell `c`; cloning a
value is the identity on this representation, so two copies share state
exactly when they carry the same cell. -/
inductive Value where
  | unit
  | nat (n : Nat)
  | str (s : String)
  | ref (cell : Nat)
  | pair (a b : Value)
  deriving DecidableEq, Repr

/-- `ServiceBuildError` from src/types/error.rs (the `Custom(anyhow::Error)`
variant is modelled as an opaque message). -/
inductive ServiceBuildError where
  | ServiceNotDound (ty : TypeInfo)
  | ScopeNotFound (ty : TypeInfo)
  | MappingNotFound (ty : TypeInfo)
  | InvalidMappingLayerBoxedInputType (expected found : TypeInfo)
  | InvalidMappingLayerBoxedOutputType (expected found : TypeInfo)
  | InvalidScopeLayerBoxedInputType (expected found : TypeInfo)
  | UnexpectedSingletoneSplitterParams (expected found : TypeInfo)
  | InvalidScopeLayerBoxedOutputType (expected found : TypeInfo)
  | Custom (msg : String)
  | TaskLocalContextNotInitialized (ty : TypeInfo)
  | ThreadLocalContextNotInitialized (ty : TypeInfo)
  deriving DecidableEq, Repr

/-- `BoxedService` from src/types/boxed_service.rs: a value tagged with the
`TypeInfo` of the static type it was boxed at. -/
structure BoxedService where
  ty : TypeInfo
  service : Value
  deriving DecidableEq, Repr

/-- `BoxedService::new::<TService>` boxes a value at type `t`. -/
def BoxedService.new (t : TypeInfo) (v : Value) : BoxedService :=
  ⟨t, v⟩

/-- `BoxedService::unbox::<TService>`: the `Box<dyn Any>::downcast` succeeds
exactly when the dynamic type id equals the requested id (the two always
agree with the stored `ty` by construction in `new`); on mismatch the
original container is returned unchanged. -/
def BoxedService.unbox (s : BoxedService) (t : TypeInfo) : Except BoxedService Value :=
  if s.ty.id = t.id then .ok s.service else .error s

/-- `SyncBoxedService` from src/types/boxed_service_sync.rs; identical to
`BoxedService` except for the (Lean-invisible) `Send + Sync` bound. -/
structure SyncBoxedService where
  ty : TypeInfo
  service : Value
  deriving DecidableEq, Repr

/-- `SyncBoxedService::new`. -/
def SyncBoxedService.new (t : TypeInfo) (v : Value) : SyncBoxedService :=
  ⟨t, v⟩

/-- `SyncBoxedService::unbox`. -/
def SyncBoxedService.unbox (s : SyncBoxedService) (t : TypeInfo) : Except SyncBoxedService Value :=
  if s.ty.id = t.id then .ok s.service else .error s

/-- Association-list lookup mirroring `AHashMap`/`DashMap` lookup: keys are
compared by `TypeInfo` equality, i.e. by `id` only. -/
def lookupTy {α : Type} (l : List (TypeInfo × α)) (ty : TypeInfo) : Option α :=
  match l with
  | [] => none
  | (k, a) :: rest => if k.id = ty.id then some a else lookupTy rest ty

/-- Map insertion mirroring `HashMap::insert`: replaces the entry if the key
is present, appends otherwise. -/
def insertTy {α : Type} (l : List (TypeInfo × α)) (ty : TypeInfo) (a : α) :
    List (TypeInfo × α) :=
  match l with
  | [] => [(ty, a)]
  | (k, b) :: rest =>
      if k.id = ty.id then (k, a) :: rest else (k, b) :: insertTy rest ty a

/-- `ThreadLocalProducer` from src/layers/scope/thread_local.rs. -/
inductive ThreadLocalProducer where
  | Pending
  | Created (inst : BoxedService)
  deriving DecidableEq, Repr

/-- `TaskLocalProducer` from src/layers/scope/task_local.rs. -/
inductive TaskLocalProducer where
  | Pending
  | Created (inst : SyncBoxedService)
  deriving DecidableEq, Repr

/-- Mutable context threaded through a resolution: the current thread's
lazily-created registry (`THREAD_LOCAL_CTX`), the optional task-local
registry (`TASK_LOCAL_CTX`, present only after a task scope was entered),
a fresh-cell supply for reference values, and a ghost log of factory
invocations. -/
structure Ctx where
  threadCtx : List (TypeInfo × ThreadLocalProducer)
  taskCtx : Option (List (TypeInfo × TaskLocalProducer))
  fresh : Nat
  calls : List TypeInfo

/-- Outcome of an engine operation: a returned value, a returned error, or
an unrecoverable fault (a Rust `assert_eq!`/`unreachable!` abort). -/
inductive Outcome (α : Type) where
  | ok (a : α)
  | err (e : ServiceBuildError)
  | fatal (msg : String)
  deriving DecidableEq, Repr

/-- `ServiceDescriptior` from src/layers/service.rs: a type key plus the
registered factory.  A factory acts on the context (it may allocate fresh
cells, and a nested resolution may touch the registries); its invocation is
recorded in the ghost call log by `ServiceDescriptior.build`. -/
structure ServiceDescriptior where
  ty : TypeInfo
  run : Ctx → Except ServiceBuildError Value × Ctx

/-- `ServiceFactory::build` composed with the boxing wrapper installed by
`ServiceDescriptior::from_factory`: invoke the user factory (logging the
invocation), then box the produced value at the registered type. -/
def ServiceDescriptior.build (d : ServiceDescriptior) (c : Ctx) :
    Except ServiceBuildError BoxedService × Ctx :=
  let c1 := { c with calls := c.calls ++ [d.ty] }
  match d.run c1 with
  | (.ok v, c2) => (.ok (BoxedService.new d.ty v), c2)
  | (.error e, c2) => (.error e, c2)

/-- `ServiceLayer` from src/layers/service.rs. -/
structure ServiceLayer where
  services : List (TypeInfo × ServiceDescriptior)

/-- `ServiceLayer::get`. -/
def ServiceLayer.get (l : ServiceLayer) (ty : TypeInfo) :
    Except ServiceBuildError ServiceDescriptior :=
  match lookupTy l.services ty with
  | some d => .ok d
  | none => .error (.ServiceNotDound ty)

/-- The `syncer` closure built in `ServiceScopeDescriptior::singletone` for a
service type `T`: unbox at `T` (mismatch ⇒ `InvalidScopeLayerBoxedInputType`)
and rebox as a thread-safe container. -/
def syncerFor (T : TypeInfo) (s : BoxedService) :
    Except ServiceBuildError SyncBoxedService :=
  match s.unbox T with
  | .ok v => .ok (SyncBoxedService.new T v)
  | .error e => .error (.InvalidScopeLayerBoxedInputType T e.ty)

/-- The `splitter` closure built in `ServiceScopeDescriptior::singletone` /
`::task_local` for `T`: unbox at `T` (mismatch ⇒
`UnexpectedSingletoneSplitterParams`), `clone` the value (identity on this
representation, so a reference value keeps its cell) and return both
copies. -/
def syncSplitterFor (T : TypeInfo) (s : SyncBoxedService) :
    Except ServiceBuildError (SyncBoxedService × SyncBoxedService) :=
  match s.unbox T with
  | .ok v => .ok (SyncBoxedService.new T v, SyncBoxedService.new T v)
  | .error e => .error (.UnexpectedSingletoneSplitterParams T e.ty)

/-- The `unsyncer` closure built in `ServiceScopeDescriptior::singletone` /
`::task_local` for `T`: unbox at `T` (mismatch ⇒
`InvalidScopeLayerBoxedOutputType`) and rebox as a plain container. -/
def unsyncerFor (T : TypeInfo) (s : SyncBoxedService) :
    Except ServiceBuildError BoxedService :=
  match s.unbox T with
  | .ok v => .ok (BoxedService.new T v)
  | .error e => .error (.InvalidScopeLayerBoxedOutputType T e.ty)

/-- The (non-sync) `splitter` closure built in
`ServiceScopeDescriptior::thread_local` for `T`; its mismatch error reuses
`UnexpectedSingletoneSplitterParams`. -/
def threadSplitterFor (T : TypeInfo) (s : BoxedService) :
    Except ServiceBuildError (BoxedService × BoxedService) :=
  match s.unbox T with
  | .ok v => .ok (BoxedService.new T v, BoxedService.new T v)
  | .error e => .error (.UnexpectedSingletoneSplitterParams T e.ty)

/-- `SingletoneProducer` from src/layers/scope/singleton.rs.  The three
closures stored in the Rust variants are fully determined by the service
type they were specialized at, so the variants carry that `TypeInfo`. -/
inductive SingletoneProducer where
  | Pending (T : TypeInfo)
  | Created (T : TypeInfo) (inst : SyncBoxedService)
  | Empty
  deriving DecidableEq, Repr

/-- `SingletoneProducer::build`: `mem::replace(self, Empty)` then either
build-sync-split-unsync (first call) or split-unsync (later calls).  Every
early `?` return leaves the producer in the `Empty` state it was replaced
with; reaching `build` on `Empty` is the `unreachable!` abort. -/
def SingletoneProducer.build (p : SingletoneProducer)
    (service_descriptor : ServiceDescriptior) (c : Ctx) :
    Outcome BoxedService × SingletoneProducer × Ctx :=
  match p with
  | .Pending T =>
    match service_descriptor.build c with
    | (.error e, c1) => (.err e, .Empty, c1)
    | (.ok service, c1) =>
      match syncerFor T service with
      | .error e => (.err e, .Empty, c1)
      | .ok service1 =>
        match syncSplitterFor T service1 with
        | .error e => (.err e, .Empty, c1)
        | .ok (inst, copy) =>
          match unsyncerFor T copy with
          | .error e => (.err e, .Empty, c1)
          | .ok copy1 => (.ok copy1, .Created T inst, c1)
  | .Created T inst =>
    match syncSplitterFor T inst with
    | .error e => (.err e, .Empty, c)
    | .ok (inst1, copy) =>
      match unsyncerFor T copy with
      | .error e => (.err e, .Empty, c)
      | .ok copy1 => (.ok copy1, .Created T inst1, c)
  | .Empty => (.fatal "Empty state only for data transition", .Empty, c)

/-- `ThreadLocalProducer::produce`: `mem::replace(self, Pending)`, build the
service on first use, then split and cache one half.  Every early error
return leaves the producer `Pending`. -/
def ThreadLocalProducer.produce (p : ThreadLocalProducer)
    (service_descriptor : ServiceDescriptior) (T : TypeInfo) (c : Ctx) :
    Outcome BoxedService × ThreadLocalProducer × Ctx :=
  match p with
  | .Pending =>
    match service_descriptor.build c with
    | (.error e, c1) => (.err e, .Pending, c1)
    | (.ok service, c1) =>
      match threadSplitterFor T service with
      | .error e => (.err e, .Pending, c1)
      | .ok (inst, copy) => (.ok copy, .Created inst, c1)
  | .Created inst =>
    match threadSplitterFor T inst with
    | .error e => (.err e, .Pending, c)
    | .ok (inst1, copy) => (.ok copy, .Created inst1, c)

/-- `TaskLocalProducer::produce`: like the thread-local producer but with
the sync/unsync conversions around the split. -/
def TaskLocalProducer.produce (p : TaskLocalProducer)
    (service_descriptor : ServiceDescriptior) (T : TypeInfo) (c : Ctx) :
    Outcome BoxedService × TaskLocalProducer × Ctx :=
  let step : Except ServiceBuildError SyncBoxedService × Ctx :=
    match p with
    | .Pending =>
      match service_descriptor.build c with
      | (.error e, c1) => (.error e, c1)
      | (.ok service, c1) => (syncerFor T service, c1)
    | .Created inst => (.ok inst, c)
  match step with
  | (.error e, c1) => (.err e, .Pending, c1)
  | (.ok service, c1) =>
    match syncSplitterFor T service with
    | .error e => (.err e, .Pending, c1)
    | .ok (inst, copy) =>
      match unsyncerFor T copy with
      | .error e => (.err e, .Pending, c1)
      | .ok copy1 => (.ok copy1, .Created inst, c1)

/-- `ThreadLocalCtx::get` / `::resolve` from src/layers/scope/thread_local.rs:
the current thread's registry is created lazily (`thread_local!` with
`Default`), so access always succeeds; the entry for `ty` starts `Pending`
(`entry().or_insert_with`) and the updated producer is written back. -/
def ThreadLocalCtx.get (ty : TypeInfo) (service_descriptor : ServiceDescriptior)
    (c : Ctx) : Outcome BoxedService × Ctx :=
  let p := (lookupTy c.threadCtx ty).getD .Pending
  match p.produce service_descriptor ty c with
  | (r, p1, c1) => (r, { c1 with threadCtx := insertTy c1.threadCtx ty p1 })

/-- `TaskLocalCtx::get` / `::resolve` from src/layers/scope/task_local.rs:
`TASK_LOCAL_CTX.try_with` fails when no task scope was entered, which is
mapped to `TaskLocalContextNotInitialized`; otherwise resolve inside the
task registry exactly like the thread-local case. -/
def TaskLocalCtx.get (ty : TypeInfo) (service_descriptor : ServiceDescriptior)
    (c : Ctx) : Outcome BoxedService × Ctx :=
  match c.taskCtx with
  | none => (.err (.TaskLocalContextNotInitialized ty), c)
  | some m =>
    let p := (lookupTy m ty).getD .Pending
    match p.produce service_descriptor ty c with
    | (r, p1, c1) =>
      let m1 := c1.taskCtx.getD m
      (r, { c1 with taskCtx := some (insertTy m1 ty p1) })

/-- `Scope` from src/layers/scope/mod.rs.  `Singletone` carries the mutex
contents; `TaskLocal`/`ThreadLocal` carry the ctr-methods closures, which
are fully determined by the service type they were specialized at. -/
inductive Scope where
  | Transient
  | Singletone (state : SingletoneProducer)
  | TaskLocal (T : TypeInfo)
  | ThreadLocal (T : TypeInfo)
  deriving DecidableEq, Repr

/-- `ServiceScopeDescriptior` from src/layers/scope/mod.rs. -/
structure ServiceScopeDescriptior where
  ty : TypeInfo
  scope : Scope
  deriving DecidableEq, Repr

/-- `ServiceScopeDescriptior::transient`. -/
def ServiceScopeDescriptior.transient (T : TypeInfo) : ServiceScopeDescriptior :=
  ⟨T, .Transient⟩

/-- `ServiceScopeDescriptior::singletone`. -/
def ServiceScopeDescriptior.singletone (T : TypeInfo) : ServiceScopeDescriptior :=
  ⟨T, .Singletone (.Pending T)⟩

/-- `ServiceScopeDescriptior::task_local`. -/
def ServiceScopeDescriptior.task_local (T : TypeInfo) : ServiceScopeDescriptior :=
  ⟨T, .TaskLocal T⟩

/-- `ServiceScopeDescriptior::thread_local`. -/
def ServiceScopeDescriptior.thread_local (T : TypeInfo) : ServiceScopeDescriptior :=
  ⟨T, .ThreadLocal T⟩

/-- `ScopeLayer` from src/layers/scope/mod.rs.  The scope map is part of the
layer value because the singleton mutex state lives inside it. -/
structure ScopeLayer where
  service_layer : ServiceLayer
  scopes : List (TypeInfo × ServiceScopeDescriptior)

/-- `ScopeLayer::get`: look up the scope descriptor (absent ⇒
`MappingNotFound`), look up the constructor (absent ⇒ `ServiceNotDound`),
run the two `assert_eq!` identity checks, then dispatch on the scope kind. -/
def ScopeLayer.get (l : ScopeLayer) (ty : TypeInfo) (c : Ctx) :
    Outcome BoxedService × ScopeLayer × Ctx :=
  match lookupTy l.scopes ty with
  | none => (.err (.MappingNotFound ty), l, c)
  | some scope =>
    match l.service_layer.get ty with
    | .error e => (.err e, l, c)
    | .ok service =>
      if scope.ty.id = ty.id then
        if scope.ty.id = service.ty.id then
          match scope.scope with
          | .Transient =>
            match service.build c with
            | (.ok s, c1) => (.ok s, l, c1)
            | (.error e, c1) => (.err e, l, c1)
          | .Singletone state =>
            match state.build service c with
            | (r, state1, c1) =>
              (r,
               { l with scopes :=
                  insertTy l.scopes ty ⟨scope.ty, .Singletone state1⟩ },
               c1)
          | .TaskLocal _T =>
            match TaskLocalCtx.get scope.ty service c with
            | (r, c1) => (r, l, c1)
          | .ThreadLocal _T =>
            match ThreadLocalCtx.get scope.ty service c with
            | (r, c1) => (r, l, c1)
        else (.fatal "assertion failed: scope.ty == service.ty", l, c)
      else (.fatal "assertion failed: scope.ty == ty", l, c)

/-- `MappingDescriptor` from src/layers/mapping.rs: source key, destination
key, and the user converter captured by `MappingDescriptor::new` (the
unbox/rebox wrapper around it is `MappingDescriptor.mapService`). -/
structure MappingDescriptor where
  src_ty : TypeInfo
  dest_ty : TypeInfo
  userMapper : Value → Except ServiceBuildError Value

/-- `MappingDescriptor::new::<TSrc, TDst>`. -/
def MappingDescriptor.new (src dst : TypeInfo)
    (m : Value → Except ServiceBuildError Value) : MappingDescriptor :=
  ⟨src, dst, m⟩

/-- The wrapped converter stored in `ServiceMapper`: unbox the erased source
at `src_ty` (mismatch ⇒ `InvalidMappingLayerBoxedInputType`), run the user
converter, rebox the result at `dest_ty`. -/
def MappingDescriptor.mapService (d : MappingDescriptor) (service : BoxedService) :
    Except ServiceBuildError BoxedService :=
  match service.unbox d.src_ty with
  | .error e => .error (.InvalidMappingLayerBoxedInputType d.src_ty e.ty)
  | .ok v =>
    match d.userMapper v with
    | .error e => .error e
    | .ok v1 => .ok (BoxedService.new d.dest_ty v1)

/-- `MappingLayer` from src/layers/mapping.rs: destination key → mapping
entries in registration order, over the scope layer. -/
structure MappingLayer where
  scope_layer : ScopeLayer
  mappings : List (TypeInfo × List MappingDescriptor)

/-- The per-entry body shared by `MappingLayer::resolve_raw` and the loop of
`::resolve_all_raw`: resolve the entry's source key through the scope layer,
run the two `assert_eq!` checks, then apply the converter. -/
def MappingLayer.resolveEntry (l : ScopeLayer) (ty : TypeInfo)
    (d : MappingDescriptor) (c : Ctx) : Outcome BoxedService × ScopeLayer × Ctx :=
  match l.get d.src_ty c with
  | (.err e, l1, c1) => (.err e, l1, c1)
  | (.fatal m, l1, c1) => (.fatal m, l1, c1)
  | (.ok service, l1, c1) =>
    if d.dest_ty.id = ty.id then
      if d.src_ty.id = service.ty.id then
        match d.mapService service with
        | .ok v => (.ok v, l1, c1)
        | .error e => (.err e, l1, c1)
      else (.fatal "assertion failed: mapping.src_ty == service.ty", l1, c1)
    else (.fatal "assertion failed: mapping.dest_ty == ty", l1, c1)

/-- `MappingLayer::resolve_raw`: take the first registered entry for the
destination key (absent key or empty list ⇒ `MappingNotFound`) and resolve
it. -/
def MappingLayer.resolve_raw (l : MappingLayer) (ty : TypeInfo) (c : Ctx) :
    Outcome BoxedService × MappingLayer × Ctx :=
  match lookupTy l.mappings ty with
  | none => (.err (.MappingNotFound ty), l, c)
  | some entries =>
    match entries.head? with
    | none => (.err (.MappingNotFound ty), l, c)
    | some d =>
      match MappingLayer.resolveEntry l.scope_layer ty d c with
      | (r, sl1, c1) => (r, { l with scope_layer := sl1 }, c1)

/-- The `iter().map(..).try_collect()` loop of `MappingLayer::resolve_all_raw`:
resolve the entries left to right, stopping at the first error or fault. -/
def MappingLayer.resolveAllLoop (ty : TypeInfo) (ds : List MappingDescriptor)
    (l : ScopeLayer) (c : Ctx) : Outcome (List BoxedService) × ScopeLayer × Ctx :=
  match ds with
  | [] => (.ok [], l, c)
  | d :: rest =>
    match MappingLayer.resolveEntry l ty d c with
    | (.ok v, l1, c1) =>
      match MappingLayer.resolveAllLoop ty rest l1 c1 with
      | (.ok vs, l2, c2) => (.ok (v :: vs), l2, c2)
      | (.err e, l2, c2) => (.err e, l2, c2)
      | (.fatal m, l2, c2) => (.fatal m, l2, c2)
    | (.err e, l1, c1) => (.err e, l1, c1)
    | (.fatal m, l1, c1) => (.fatal m, l1, c1)

/-- `MappingLayer::resolve_all_raw`: absent destination key ⇒
`MappingNotFound`, otherwise resolve every registered entry in order. -/
def MappingLayer.resolve_all_raw (l : MappingLayer) (ty : TypeInfo) (c : Ctx) :
    Outcome (List BoxedService) × MappingLayer × Ctx :=
  match lookupTy l.mappings ty with
  | none => (.err (.MappingNotFound ty), l, c)
  | some entries =>
    match MappingLayer.resolveAllLoop ty entries l.scope_layer c with
    | (r, sl1, c1) => (r, { l with scope_layer := sl1 }, c1)

/-- `MappingLayerBuilder::add_mapping` on the mappings map: push onto the
entry list when the destination key is occupied, insert a fresh singleton
list otherwise. -/
def addMapping (m : List (TypeInfo × List MappingDescriptor)) (src dst : TypeInfo)
    (f : Value → Except ServiceBuildError Value) :
    List (TypeInfo × List MappingDescriptor) :=
  match lookupTy m dst with
  | some entries => insertTy m dst (entries ++ [MappingDescriptor.new src dst f])
  | none => insertTy m dst [MappingDescriptor.new src dst f]

/-- `SimpleDiBuilder` from src/builder.rs, holding the three layer
builders' registries. -/
structure SimpleDiBuilder where
  services : List (TypeInfo × ServiceDescriptior)
  scopes : List (TypeInfo × ServiceScopeDescriptior)
  mappings : List (TypeInfo × List MappingDescriptor)

/-- The empty builder (`SimpleDiBuilder::new`). -/
def SimpleDiBuilder.new : SimpleDiBuilder :=
  ⟨[], [], []⟩

/-- `SimpleDiBuilder::transient::<TService>`: register the constructor, a
transient scope descriptor, and the automatic identity mapping `T → T`
(`|x| Ok(x)`). -/
def SimpleDiBuilder.transient (b : SimpleDiBuilder) (T : TypeInfo)
    (factory : Ctx → Except ServiceBuildError Value × Ctx) : SimpleDiBuilder :=
  { services := insertTy b.services T ⟨T, factory⟩
    scopes := insertTy b.scopes T (ServiceScopeDescriptior.transient T)
    mappings := addMapping b.mappings T T (fun x => .ok x) }

/-- `SimpleDiBuilder::singletone::<TService>`. -/
def SimpleDiBuilder.singletone (b : SimpleDiBuilder) (T : TypeInfo)
    (factory : Ctx → Except ServiceBuildError Value × Ctx) : SimpleDiBuilder :=
  { services := insertTy b.services T ⟨T, factory⟩
    scopes := insertTy b.scopes T (ServiceScopeDescriptior.singletone T)
    mappings := addMapping b.mappings T T (fun x => .ok x) }

/-- `SimpleDiBuilder::task_local::<TService>`. -/
def SimpleDiBuilder.task_local (b : SimpleDiBuilder) (T : TypeInfo)
    (factory : Ctx → Except ServiceBuildError Value × Ctx) : SimpleDiBuilder :=
  { services := insertTy b.services T ⟨T, factory⟩
    scopes := insertTy b.scopes T (ServiceScopeDescriptior.task_local T)
    mappings := addMapping b.mappings T T (fun x => .ok x) }

/-- `SimpleDiBuilder::thread_local::<TService>`. -/
def SimpleDiBuilder.thread_local (b : SimpleDiBuilder) (T : TypeInfo)
    (factory : Ctx → Except ServiceBuildError Value × Ctx) : SimpleDiBuilder :=
  { services := insertTy b.services T ⟨T, factory⟩
    scopes := insertTy b.scopes T (ServiceScopeDescriptior.thread_local T)
    mappings := addMapping b.mappings T T (fun x => .ok x) }

/-- `SimpleDiBuilderService::map_as` / the explicit-mapping registration:
append a converter entry under the destination key. -/
def SimpleDiBuilder.map_as (b : SimpleDiBuilder) (src dst : TypeInfo)
    (m : Value → Except ServiceBuildError Value) : SimpleDiBuilder :=
  { b with mappings := addMapping b.mappings src dst m }

/-- `SimpleDiBuilder::build`: freeze the three registries into the layered
provider. -/
def SimpleDiBuilder.build (b : SimpleDiBuilder) : MappingLayer :=
  { scope_layer := { service_layer := ⟨b.services⟩, scopes := b.scopes }
    mappings := b.mappings }

/-- An initial context: fresh thread registry, no task scope entered. -/
def Ctx.init : Ctx :=
  ⟨[], none, 0, []⟩

/-- A context with an (empty) task scope entered, as produced by
`TaskLocalCtx::span` / `add_service_span`. -/
def Ctx.initTask : Ctx :=
  ⟨[], some [], 0, []⟩

/-- A concrete type key. -/
def tyA : TypeInfo := ⟨1, "A"⟩

/-- A second, distinct type key. -/
def tyB : TypeInfo := ⟨2, "B"⟩

/-- A factory that always fails with a user error. -/
def failFactory : Ctx → Except ServiceBuildError Value × Ctx :=
  fun c => (.error (.Custom "factory failed"), c)

/-- A container with a single transient registration for `tyA`. -/
def slA : ScopeLayer :=
  ((SimpleDiBuilder.new.transient tyA (fun c => (.ok (.nat 1), c))).build).scope_layer

/-- A container with a single singleton registration for `tyA`, whose
factory fails. -/
def slFail : ScopeLayer :=
  ((SimpleDiBuilder.new.singletone tyA failFactory).build).scope_layer

/-- Iterate `ScopeLayer::get` on the same key, collecting the outcomes. -/
def iterGet (l : ScopeLayer) (ty : TypeInfo) (c : Ctx) : Nat →
    List (Outcome BoxedService) × ScopeLayer × Ctx
  | 0 => ([], l, c)
  | n + 1 =>
    match l.get ty c with
    | (r, l1, c1) =>
      match iterGet l1 ty c1 n with
      | (rs, l2, c2) => (r :: rs, l2, c2)

/-- A container with a single singleton registration for `tyA` whose factory
always succeeds with the shared cell 7. -/
def slSing : ScopeLayer :=
  ((SimpleDiBuilder.new.singletone tyA (fun c => (.ok (.ref 7), c))).build).scope_layer

/-- The two "scope context missing" error shapes. -/
def errCtxMissing : ServiceBuildError → Bool
  | .TaskLocalContextNotInitialized _ => true
  | .ThreadLocalContextNotInitialized _ => true
  | _ => false

/-- A factory is clean when it never itself fabricates a missing-context
error (in the source this corresponds to a factory that does not perform a
failing nested scoped resolution and does not hand such an error back
verbatim). -/
def FactoryClean (sd : ServiceDescriptior) : Prop :=
  ∀ c e, (sd.run c).1 = .error e → errCtxMissing e = false

/-- A container with a single task-local registration for `tyA`. -/
def slTask : ScopeLayer :=
  ((SimpleDiBuilder.new.task_local tyA (fun c => (.ok (.ref 3), c))).build).scope_layer

/-- Specification-side description of resolve-all, following the spec's
words: walk the entries registered under the destination key in
registration order, resolve each entry's own source key through the Scope
Layer and convert it, accumulating the converted values; the first failing
entry aborts the whole call with that failure.  (Written with an explicit
accumulator, unlike the source's `map`/`try_collect` loop.) -/
def resolveAllSpecGo (ty : TypeInfo) (ds : List MappingDescriptor)
    (acc : List BoxedService) (l : ScopeLayer) (c : Ctx) :
    Outcome (List BoxedService) × ScopeLayer × Ctx :=
  match ds with
  | [] => (.ok acc.reverse, l, c)
  | d :: rest =>
    match MappingLayer.resolveEntry l ty d c with
    | (.ok v, l1, c1) => resolveAllSpecGo ty rest (v :: acc) l1 c1
    | (.err e, l1, c1) => (.err e, l1, c1)
    | (.fatal m, l1, c1) => (.fatal m, l1, c1)

/-- Specification-side resolve-all: process all entries starting from an
empty accumulator. -/
def resolveAllSpec (ty : TypeInfo) (ds : List MappingDescriptor)
    (l : ScopeLayer) (c : Ctx) : Outcome (List BoxedService) × ScopeLayer × Ctx :=
  resolveAllSpecGo ty ds [] l c

/-- A provider with a single transient registration for `tyA` (and hence an
auto-registered identity mapping for `tyA`). -/
def mlA : MappingLayer :=
  (SimpleDiBuilder.new.transient tyA (fun c => (.ok (.nat 1), c))).build

/-- A mapping from `tyA` to `tyB` tagging the value with 1. -/
def mapperOne : Value → Except ServiceBuildError Value :=
  fun v => .ok (.pair v (.nat 1))

/-- A second mapping from `tyA` to `tyB` tagging the value with 2. -/
def mapperTwo : Value → Except ServiceBuildError Value :=
  fun v => .ok (.pair v (.nat 2))

/-- A provider registering `tyA` transiently and mapping it to `tyB` twice. -/
def mlTwo : MappingLayer :=
  (((SimpleDiBuilder.new.transient tyA (fun c => (.ok (.nat 1), c))).map_as
      tyA tyB mapperOne).map_as tyA tyB mapperTwo).build

/-- The same provider with only the first `tyA → tyB` mapping. -/
def mlOne : MappingLayer :=
  ((SimpleDiBuilder.new.transient tyA (fun c => (.ok (.nat 1), c))).map_as
      tyA tyB mapperOne).build

/-- A builder with only a transient `tyA` registration. -/
def bA : SimpleDiBuilder :=
  SimpleDiBuilder.new.transient tyA (fun c => (.ok (.nat 1), c))

/-- A builder with only a transient `tyB` registration (so `tyB` already has
its auto-identity mapping entry). -/
def bB : SimpleDiBuilder :=
  SimpleDiBuilder.new.transient tyB (fun c => (.ok (.nat 2), c))

/-- The four lifecycle registration methods of `SimpleDiBuilder`. -/
inductive RegKind where
  | transient
  | singletone
  | task_local
  | thread_local
  deriving DecidableEq, Repr

/-- Dispatch a registration through the named builder method. -/
def SimpleDiBuilder.register (b : SimpleDiBuilder) (k : RegKind) (T : TypeInfo)
    (f : Ctx → Except ServiceBuildError Value × Ctx) : SimpleDiBuilder :=
  match k with
  | .transient => b.transient T f
  | .singletone => b.singletone T f
  | .task_local => b.task_local T f
  | .thread_local => b.thread_local T f

/-! ### Concrete fixtures used by counterexamples and witnesses -/

/-! ### C1 — absent scope entry -/

/-- C1 (counterexample): with no scope entry for `tyB`, `ScopeLayer::get`
fails with `MappingNotFound`, not with the `ScopeNotFound` variant the spec
names (that variant is declared in src/types/error.rs but never produced by
the scope layer). -/
theorem c1_scope_absent_not_scopeNotFound :
    ((slA.get tyB Ctx.init).1 = .err (.MappingNotFound tyB)) ∧
    ¬ ((slA.get tyB Ctx.init).1 = .err (.ScopeNotFound tyB)) := by
  constructor <;> decide

/-- C1 (amended): for every type key with no scope entry, `ScopeLayer::get`
fails with the `MappingNotFound` error carrying that key. -/
theorem c1_scope_absent_mappingNotFound (l : ScopeLayer) (ty : TypeInfo) (c : Ctx)
    (h : lookupTy l.scopes ty = none) :
    (l.get ty c).1 = .err (.MappingNotFound ty) := by
  unfold ScopeLayer.get
  rw [h]

/-- C1 witness: the amended statement evaluated on a concrete container and
absent key. -/
theorem c1_scope_absent_mappingNotFound_witness :
    (slA.get tyB Ctx.init).1 = .err (.MappingNotFound tyB) :=
  c1_scope_absent_mappingNotFound slA tyB Ctx.init (by decide)

/-! ### C2 — singleton factory failure -/

/-- C2 (code bug): for a singleton whose factory returns an error, the first
resolution does return the error as a value, but it leaves the producer in
the `Empty` state, so the second resolution of the same key hits the
`unreachable!("Empty state only for data transition")` abort instead of
returning a value — the `Empty` marker is externally observable. -/
theorem c2_singleton_error_then_fatal :
    ((slFail.get tyA Ctx.init).1 = .err (.Custom "factory failed")) ∧
    (((slFail.get tyA Ctx.init).2.1.get tyA (slFail.get tyA Ctx.init).2.2).1
      = .fatal "Empty state only for data transition") := by
  constructor <;> decide

/-! ### C4 — type-erasure round trip -/

/-- C4: `unwrap::<T>(wrap(v))` returns `v` unchanged; `unwrap::<U>` for a
distinct `U` fails without data loss, returning the erased container
unchanged, and that container still unwraps at `T` to the original `v`.
Both for `BoxedService` and `SyncBoxedService`. -/
theorem c4_unbox_roundtrip (T U : TypeInfo) (v : Value) (h : T.id ≠ U.id) :
    ((BoxedService.new T v).unbox T = .ok v) ∧
    ((BoxedService.new T v).unbox U = .error (BoxedService.new T v)) ∧
    (∀ b : BoxedService,
      (BoxedService.new T v).unbox U = .error b → b.unbox T = .ok v) ∧
    ((SyncBoxedService.new T v).unbox T = .ok v) ∧
    ((SyncBoxedService.new T v).unbox U = .error (SyncBoxedService.new T v)) ∧
    (∀ b : SyncBoxedService,
      (SyncBoxedService.new T v).unbox U = .error b → b.unbox T = .ok v) := by
  refine ⟨?_, ?_, ?_, ?_, ?_, ?_⟩
  · simp [BoxedService.unbox, BoxedService.new]
  · simp [BoxedService.unbox, BoxedService.new, h]
  · intro b hb
    simp only [BoxedService.unbox, BoxedService.new, if_neg h] at hb
    cases hb
    simp [BoxedService.unbox]
  · simp [SyncBoxedService.unbox, SyncBoxedService.new]
  · simp [SyncBoxedService.unbox, SyncBoxedService.new, h]
  · intro b hb
    simp only [SyncBoxedService.unbox, SyncBoxedService.new, if_neg h] at hb
    cases hb
    simp [SyncBoxedService.unbox]

/-- C4 witness: the round trip evaluated at two concrete distinct keys and a
concrete value. -/
theorem c4_unbox_roundtrip_witness :
    ((BoxedService.new tyA (.nat 5)).unbox tyA = .ok (.nat 5)) ∧
    ((BoxedService.new tyA (.nat 5)).unbox tyB
      = .error (BoxedService.new tyA (.nat 5))) := by
  have h := c4_unbox_roundtrip tyA tyB (.nat 5) (by decide)
  exact ⟨h.1, h.2.1⟩

/-! ### C9 — transient rebuilds on every resolution -/

/-- Helper: one `ScopeLayer::get` step on a transient registration with a
fresh-cell-allocating factory: the factory runs (one call logged, one cell
allocated), the fresh cell is returned, and the layer is unchanged — nothing
is cached. -/
theorem transient_get_step (l : ScopeLayer) (ty : TypeInfo) (sd : ServiceDescriptior)
    (hscope : lookupTy l.scopes ty = some ⟨ty, .Transient⟩)
    (hsvc : lookupTy l.service_layer.services ty = some sd)
    (hty : sd.ty = ty)
    (hf : ∀ c', sd.run c' = (.ok (.ref c'.fresh), { c' with fresh := c'.fresh + 1 })) :
    ∀ c : Ctx, l.get ty c =
      (.ok ⟨ty, .ref c.fresh⟩, l,
       { c with calls := c.calls ++ [ty], fresh := c.fresh + 1 }) := by
  intro c
  simp only [ScopeLayer.get, ServiceLayer.get, hscope, hsvc, hty,
    ServiceDescriptior.build, hf, BoxedService.new]
  simp

/-- C9: for a transient-registered key with an allocating factory, two
successive resolutions each invoke the factory anew (two logged calls),
return independent instances referencing distinct cells, and never change
the scope layer (no state is cached). -/
theorem c9_transient_independent (l : ScopeLayer) (ty : TypeInfo)
    (sd : ServiceDescriptior) (c : Ctx)
    (hscope : lookupTy l.scopes ty = some ⟨ty, .Transient⟩)
    (hsvc : lookupTy l.service_layer.services ty = some sd)
    (hty : sd.ty = ty)
    (hf : ∀ c', sd.run c' = (.ok (.ref c'.fresh), { c' with fresh := c'.fresh + 1 })) :
    ((l.get ty c).1 = .ok ⟨ty, .ref c.fresh⟩) ∧
    ((l.get ty c).2.1 = l) ∧
    (((l.get ty c).2.1.get ty (l.get ty c).2.2).1 = .ok ⟨ty, .ref (c.fresh + 1)⟩) ∧
    (((l.get ty c).2.1.get ty (l.get ty c).2.2).2.1 = l) ∧
    ((l.get ty c).1 ≠ ((l.get ty c).2.1.get ty (l.get ty c).2.2).1) ∧
    (((l.get ty c).2.1.get ty (l.get ty c).2.2).2.2.calls = c.calls ++ [ty, ty]) := by
  have h1 := transient_get_step l ty sd hscope hsvc hty hf c
  rw [h1]
  have h2 := transient_get_step l ty sd hscope hsvc hty hf
    { c with calls := c.calls ++ [ty], fresh := c.fresh + 1 }
  simp only [h2]
  refine ⟨trivial, trivial, trivial, trivial, ?_, by simp⟩
  simp

/-- C9 witness: two transient resolutions on a concrete container yield
cells 0 and 1. -/
theorem c9_transient_independent_witness :
    let l := ((SimpleDiBuilder.new.transient tyA
      (fun c' => (.ok (.ref c'.fresh), { c' with fresh := c'.fresh + 1 }))).build).scope_layer
    ((l.get tyA Ctx.init).1 = .ok ⟨tyA, .ref 0⟩) ∧
    (((l.get tyA Ctx.init).2.1.get tyA (l.get tyA Ctx.init).2.2).1 = .ok ⟨tyA, .ref 1⟩) := by
  intro l
  have h := c9_transient_independent l tyA
    ⟨tyA, fun c' => (.ok (.ref c'.fresh), { c' with fresh := c'.fresh + 1 })⟩
    Ctx.init (by decide) rfl rfl (fun c' => rfl)
  exact ⟨h.1, h.2.2.1⟩

/-! ### Map helper lemmas -/

/-- Looking up a key right after inserting it yields the inserted value. -/
theorem lookupTy_insertTy_self {α : Type} (l : List (TypeInfo × α)) (ty : TypeInfo)
    (a : α) : lookupTy (insertTy l ty a) ty = some a := by
  induction l with
  | nil => simp [insertTy, lookupTy]
  | cons hd tl ih =>
    obtain ⟨k, b⟩ := hd
    by_cases h : k.id = ty.id
    · simp [insertTy, lookupTy, h]
    · simp [insertTy, lookupTy, h, ih]

/-- Re-inserting the value a key already maps to leaves the map unchanged. -/
theorem insertTy_self {α : Type} (l : List (TypeInfo × α)) (ty : TypeInfo) (a : α)
    (h : lookupTy l ty = some a) : insertTy l ty a = l := by
  induction l with
  | nil => simp [lookupTy] at h
  | cons hd tl ih =>
    obtain ⟨k, b⟩ := hd
    by_cases hk : k.id = ty.id
    · simp [lookupTy, hk] at h
      simp [insertTy, hk, h]
    · simp [lookupTy, hk] at h
      simp [insertTy, hk, ih h]

/-! ### C3 — singleton builds once, then hands out split copies -/

/-- Helper: the first `get` on a pending singleton runs the factory once,
caches the split half, and returns the other half. -/
theorem singleton_first_get (l : ScopeLayer) (ty : TypeInfo)
    (sd : ServiceDescriptior) (v : Value)
    (hscope : lookupTy l.scopes ty = some ⟨ty, .Singletone (.Pending ty)⟩)
    (hsvc : lookupTy l.service_layer.services ty = some sd)
    (hty : sd.ty = ty)
    (hf : ∀ c', sd.run c' = (.ok v, c')) (c : Ctx) :
    l.get ty c =
      (.ok ⟨ty, v⟩,
       { l with scopes :=
          insertTy l.scopes ty ⟨ty, .Singletone (.Created ty ⟨ty, v⟩)⟩ },
       { c with calls := c.calls ++ [ty] }) := by
  simp only [ScopeLayer.get, ServiceLayer.get, hscope, hsvc, hty,
    SingletoneProducer.build, ServiceDescriptior.build, hf,
    syncerFor, syncSplitterFor, unsyncerFor,
    BoxedService.new, SyncBoxedService.new, BoxedService.unbox, SyncBoxedService.unbox]
  simp

/-- Helper: a `get` on a created singleton touches neither the factory nor
the context and returns a copy split from the cached instance; the layer is
unchanged. -/
theorem singleton_created_get (l : ScopeLayer) (ty : TypeInfo)
    (sd : ServiceDescriptior) (v : Value)
    (hscope : lookupTy l.scopes ty = some ⟨ty, .Singletone (.Created ty ⟨ty, v⟩)⟩)
    (hsvc : lookupTy l.service_layer.services ty = some sd)
    (hty : sd.ty = ty) (c : Ctx) :
    l.get ty c = (.ok ⟨ty, v⟩, l, c) := by
  simp only [ScopeLayer.get, ServiceLayer.get, hscope, hsvc, hty,
    SingletoneProducer.build, syncSplitterFor, unsyncerFor,
    BoxedService.new, SyncBoxedService.new, BoxedService.unbox, SyncBoxedService.unbox]
  simp [insertTy_self l.scopes ty _ hscope]

/-- Helper: iterating `get` on a created singleton returns the same split
copy every time and never changes any state. -/
theorem singleton_created_iter (l : ScopeLayer) (ty : TypeInfo)
    (sd : ServiceDescriptior) (v : Value)
    (hscope : lookupTy l.scopes ty = some ⟨ty, .Singletone (.Created ty ⟨ty, v⟩)⟩)
    (hsvc : lookupTy l.service_layer.services ty = some sd)
    (hty : sd.ty = ty) (c : Ctx) (n : Nat) :
    iterGet l ty c n = (List.replicate n (.ok ⟨ty, v⟩), l, c) := by
  induction n generalizing c with
  | zero => simp [iterGet]
  | succ m ih =>
    simp [iterGet, singleton_created_get l ty sd v hscope hsvc hty c, ih,
      List.replicate_succ]

/-- C3: for a singleton-registered key whose factory succeeds with value
`v`, any positive number of resolutions logs exactly one factory invocation,
every resolution (first and later) returns the same split copy `⟨ty, v⟩` of
the single cached construction, and the final cache holds that one
construction.  When `v` is a reference value, all returned copies name the
same cell, i.e. they observably share state. -/
theorem c3_singleton_factory_once (l : ScopeLayer) (ty : TypeInfo)
    (sd : ServiceDescriptior) (v : Value) (c : Ctx) (n : Nat)
    (hscope : lookupTy l.scopes ty = some ⟨ty, .Singletone (.Pending ty)⟩)
    (hsvc : lookupTy l.service_layer.services ty = some sd)
    (hty : sd.ty = ty)
    (hf : ∀ c', sd.run c' = (.ok v, c'))
    (hn : 0 < n) :
    ((iterGet l ty c n).1 = List.replicate n (.ok ⟨ty, v⟩)) ∧
    ((iterGet l ty c n).2.2.calls = c.calls ++ [ty]) ∧
    ((iterGet l ty c n).2.1 =
      { l with scopes :=
         insertTy l.scopes ty ⟨ty, .Singletone (.Created ty ⟨ty, v⟩)⟩ }) := by
  obtain ⟨m, rfl⟩ : ∃ m, n = m + 1 := ⟨n - 1, (Nat.succ_pred_eq_of_pos hn).symm⟩
  have h1 := singleton_first_get l ty sd v hscope hsvc hty hf c
  have hscope1 : lookupTy
      (insertTy l.scopes ty ⟨ty, .Singletone (.Created ty ⟨ty, v⟩)⟩) ty
      = some ⟨ty, .Singletone (.Created ty ⟨ty, v⟩)⟩ :=
    lookupTy_insertTy_self _ _ _
  have h2 := singleton_created_iter
    { l with scopes := insertTy l.scopes ty ⟨ty, .Singletone (.Created ty ⟨ty, v⟩)⟩ }
    ty sd v hscope1 hsvc hty { c with calls := c.calls ++ [ty] } m
  simp [iterGet, h1, h2, List.replicate_succ]

/-- C3 witness: three resolutions of a concrete singleton all return the
copy sharing cell 7, with exactly one logged factory call. -/
theorem c3_singleton_factory_once_witness :
    ((iterGet slSing tyA Ctx.init 3).1 = List.replicate 3 (.ok ⟨tyA, .ref 7⟩)) ∧
    ((iterGet slSing tyA Ctx.init 3).2.2.calls = Ctx.init.calls ++ [tyA]) :=
  have h := c3_singleton_factory_once slSing tyA ⟨tyA, fun c => (.ok (.ref 7), c)⟩
    (.ref 7) Ctx.init 3 (by decide) rfl rfl (fun _ => rfl) (by decide)
  ⟨h.1, h.2.1⟩

/-! ### C5 — missing scope context -/

/-- `ServiceDescriptior.build` surfaces only factory errors, so it stays
clean for a clean factory. -/
theorem sdBuild_clean (sd : ServiceDescriptior) (c : Ctx) (hclean : FactoryClean sd) :
    ∀ e, (sd.build c).1 = .error e → errCtxMissing e = false := by
  intro e h
  simp only [ServiceDescriptior.build] at h
  rcases hr : sd.run { c with calls := c.calls ++ [sd.ty] } with ⟨r, c2⟩
  rw [hr] at h
  cases r with
  | error e1 =>
    simp at h
    subst h
    exact hclean _ e1 (by rw [hr])
  | ok v => simp at h

/-- `syncerFor` fails only with `InvalidScopeLayerBoxedInputType`. -/
theorem syncerFor_clean (T : TypeInfo) (s : BoxedService) (e : ServiceBuildError)
    (h : syncerFor T s = .error e) : errCtxMissing e = false := by
  unfold syncerFor at h
  rcases hu : s.unbox T with e1 | v <;> rw [hu] at h <;> simp at h
  subst h
  rfl

/-- `syncSplitterFor` fails only with `UnexpectedSingletoneSplitterParams`. -/
theorem syncSplitterFor_clean (T : TypeInfo) (s : SyncBoxedService)
    (e : ServiceBuildError) (h : syncSplitterFor T s = .error e) :
    errCtxMissing e = false := by
  unfold syncSplitterFor at h
  rcases hu : s.unbox T with e1 | v <;> rw [hu] at h <;> simp at h
  subst h
  rfl

/-- `unsyncerFor` fails only with `InvalidScopeLayerBoxedOutputType`. -/
theorem unsyncerFor_clean (T : TypeInfo) (s : SyncBoxedService)
    (e : ServiceBuildError) (h : unsyncerFor T s = .error e) :
    errCtxMissing e = false := by
  unfold unsyncerFor at h
  rcases hu : s.unbox T with e1 | v <;> rw [hu] at h <;> simp at h
  subst h
  rfl

/-- `threadSplitterFor` fails only with `UnexpectedSingletoneSplitterParams`. -/
theorem threadSplitterFor_clean (T : TypeInfo) (s : BoxedService)
    (e : ServiceBuildError) (h : threadSplitterFor T s = .error e) :
    errCtxMissing e = false := by
  unfold threadSplitterFor at h
  rcases hu : s.unbox T with e1 | v <;> rw [hu] at h <;> simp at h
  subst h
  rfl

/-- The singleton producer never returns a missing-context error. -/
theorem singProducerBuild_clean (p : SingletoneProducer)
    (sd : ServiceDescriptior) (c : Ctx) (hclean : FactoryClean sd) :
    ∀ e, (p.build sd c).1 = .err e → errCtxMissing e = false := by
  intro e h
  cases p with
  | Pending T =>
    simp only [SingletoneProducer.build] at h
    rcases hb : sd.build c with ⟨r, c1⟩
    rw [hb] at h
    cases r with
    | error e1 =>
      simp at h
      subst h
      exact sdBuild_clean sd c hclean e1 (by rw [hb])
    | ok service =>
      simp at h
      rcases hs : syncerFor T service with e1 | s1 <;> rw [hs] at h <;> simp at h
      · subst h
        exact syncerFor_clean T service _ hs
      · rcases hsp : syncSplitterFor T s1 with e1 | ⟨i1, cp⟩ <;> rw [hsp] at h <;>
          simp at h
        · subst h
          exact syncSplitterFor_clean T s1 _ hsp
        · rcases hu2 : unsyncerFor T cp with e1 | cp1 <;> rw [hu2] at h <;> simp at h
          subst h
          exact unsyncerFor_clean T cp _ hu2
  | Created T inst =>
    simp only [SingletoneProducer.build] at h
    rcases hsp : syncSplitterFor T inst with e1 | ⟨i1, cp⟩ <;> rw [hsp] at h <;> simp at h
    · subst h
      exact syncSplitterFor_clean T inst _ hsp
    · rcases hu2 : unsyncerFor T cp with e1 | cp1 <;> rw [hu2] at h <;> simp at h
      subst h
      exact unsyncerFor_clean T cp _ hu2
  | Empty =>
    simp only [SingletoneProducer.build] at h
    simp at h

/-- The thread-local producer never returns a missing-context error. -/
theorem threadProduce_clean (p : ThreadLocalProducer) (sd : ServiceDescriptior)
    (T : TypeInfo) (c : Ctx) (hclean : FactoryClean sd) :
    ∀ e, (p.produce sd T c).1 = .err e → errCtxMissing e = false := by
  intro e h
  cases p with
  | Pending =>
    simp only [ThreadLocalProducer.produce] at h
    rcases hb : sd.build c with ⟨r, c1⟩
    rw [hb] at h
    cases r with
    | error e1 =>
      simp at h
      subst h
      exact sdBuild_clean sd c hclean e1 (by rw [hb])
    | ok service =>
      simp at h
      rcases hs : threadSplitterFor T service with e1 | ⟨i1, cp⟩ <;> rw [hs] at h <;>
        simp at h
      subst h
      exact threadSplitterFor_clean T service _ hs
  | Created inst =>
    simp only [ThreadLocalProducer.produce] at h
    rcases hs : threadSplitterFor T inst with e1 | ⟨i1, cp⟩ <;> rw [hs] at h <;> simp at h
    subst h
    exact threadSplitterFor_clean T inst _ hs

/-- The task-local producer never returns a missing-context error. -/
theorem taskProduce_clean (p : TaskLocalProducer) (sd : ServiceDescriptior)
    (T : TypeInfo) (c : Ctx) (hclean : FactoryClean sd) :
    ∀ e, (p.produce sd T c).1 = .err e → errCtxMissing e = false := by
  intro e h
  cases p with
  | Pending =>
    simp only [TaskLocalProducer.produce] at h
    rcases hb : sd.build c with ⟨r, c1⟩
    rw [hb] at h
    cases r with
    | error e1 =>
      simp at h
      subst h
      exact sdBuild_clean sd c hclean e1 (by rw [hb])
    | ok service =>
      simp at h
      rcases hs : syncerFor T service with e1 | s1 <;> rw [hs] at h <;> simp at h
      · subst h
        exact syncerFor_clean T service _ hs
      · rcases hsp : syncSplitterFor T s1 with e1 | ⟨i1, cp⟩ <;> rw [hsp] at h <;>
          simp at h
        · subst h
          exact syncSplitterFor_clean T s1 _ hsp
        · rcases hu2 : unsyncerFor T cp with e1 | cp1 <;> rw [hu2] at h <;> simp at h
          subst h
          exact unsyncerFor_clean T cp _ hu2
  | Created inst =>
    simp only [TaskLocalProducer.produce] at h
    rcases hsp : syncSplitterFor T inst with e1 | ⟨i1, cp⟩ <;> rw [hsp] at h <;> simp at h
    · subst h
      exact syncSplitterFor_clean T inst _ hsp
    · rcases hu2 : unsyncerFor T cp with e1 | cp1 <;> rw [hu2] at h <;> simp at h
      subst h
      exact unsyncerFor_clean T cp _ hu2

/-- `ThreadLocalCtx::get` never returns a missing-context error: the thread
registry is created lazily, so access never fails. -/
theorem threadCtxGet_clean (ty : TypeInfo) (sd : ServiceDescriptior) (c : Ctx)
    (hclean : FactoryClean sd) :
    ∀ e, (ThreadLocalCtx.get ty sd c).1 = .err e → errCtxMissing e = false := by
  intro e h
  simp only [ThreadLocalCtx.get] at h
  rcases hpr : ((lookupTy c.threadCtx ty).getD .Pending).produce sd ty c with ⟨r, p1, c1⟩
  rw [hpr] at h
  simp at h
  exact threadProduce_clean _ sd ty c hclean e (by rw [hpr]; simpa using h)

/-- `TaskLocalCtx::get` with no entered task scope fails with exactly the
missing-context error carrying the requested key. -/
theorem taskCtxGet_none (ty : TypeInfo) (sd : ServiceDescriptior) (c : Ctx)
    (h : c.taskCtx = none) :
    TaskLocalCtx.get ty sd c = (.err (.TaskLocalContextNotInitialized ty), c) := by
  simp [TaskLocalCtx.get, h]

/-- `TaskLocalCtx::get` with an entered task scope never returns a
missing-context error. -/
theorem taskCtxGet_some_clean (ty : TypeInfo) (sd : ServiceDescriptior) (c : Ctx)
    (m : List (TypeInfo × TaskLocalProducer)) (hm : c.taskCtx = some m)
    (hclean : FactoryClean sd) :
    ∀ e, (TaskLocalCtx.get ty sd c).1 = .err e → errCtxMissing e = false := by
  intro e h
  simp only [TaskLocalCtx.get, hm] at h
  rcases hpr : ((lookupTy m ty).getD .Pending).produce sd ty c with ⟨r, p1, c1⟩
  rw [hpr] at h
  simp at h
  exact taskProduce_clean _ sd ty c hclean e (by rw [hpr]; simpa using h)

/-- Scope-layer dispatch never produces a missing-context error unless the
key is task-scoped and no task scope is active. -/
theorem scopeGet_err_clean (l : ScopeLayer) (ty : TypeInfo) (sd : ServiceDescriptior)
    (sc : Scope) (c : Ctx)
    (hscope : lookupTy l.scopes ty = some ⟨ty, sc⟩)
    (hsvc : lookupTy l.service_layer.services ty = some sd)
    (hty : sd.ty = ty) (hclean : FactoryClean sd)
    (hns : (∃ T, sc = Scope.TaskLocal T) → c.taskCtx ≠ none) :
    ∀ e, (l.get ty c).1 = .err e → errCtxMissing e = false := by
  intro e h
  cases sc with
  | Transient =>
    simp only [ScopeLayer.get, ServiceLayer.get, hscope, hsvc, hty] at h
    simp at h
    rcases hb : sd.build c with ⟨r, c1⟩
    rw [hb] at h
    cases r with
    | error e1 =>
      simp at h
      subst h
      exact sdBuild_clean sd c hclean e1 (by rw [hb])
    | ok service => simp at h
  | Singletone state =>
    simp only [ScopeLayer.get, ServiceLayer.get, hscope, hsvc, hty] at h
    simp at h
    rcases hb : state.build sd c with ⟨r, s1, c1⟩
    rw [hb] at h
    simp at h
    exact singProducerBuild_clean state sd c hclean e (by rw [hb]; simpa using h)
  | TaskLocal T =>
    rcases hm : c.taskCtx with _ | m
    · exact absurd hm (hns ⟨T, rfl⟩)
    · simp only [ScopeLayer.get, ServiceLayer.get, hscope, hsvc, hty] at h
      simp at h
      rcases hg : TaskLocalCtx.get ty sd c with ⟨r, c1⟩
      rw [hg] at h
      simp at h
      exact taskCtxGet_some_clean ty sd c m hm hclean e (by rw [hg]; simpa using h)
  | ThreadLocal T =>
    simp only [ScopeLayer.get, ServiceLayer.get, hscope, hsvc, hty] at h
    simp at h
    rcases hg : ThreadLocalCtx.get ty sd c with ⟨r, c1⟩
    rw [hg] at h
    simp at h
    exact threadCtxGet_clean ty sd c hclean e (by rw [hg]; simpa using h)

/-- A task-scoped key resolved with no active task scope fails with the
missing-context error carrying that key. -/
theorem scopeGet_taskMissing (l : ScopeLayer) (ty : TypeInfo) (sd : ServiceDescriptior)
    (T : TypeInfo) (c : Ctx)
    (hscope : lookupTy l.scopes ty = some ⟨ty, .TaskLocal T⟩)
    (hsvc : lookupTy l.service_layer.services ty = some sd)
    (hty : sd.ty = ty) (hnone : c.taskCtx = none) :
    (l.get ty c).1 = .err (.TaskLocalContextNotInitialized ty) := by
  simp [ScopeLayer.get, ServiceLayer.get, hscope, hsvc, hty, TaskLocalCtx.get, hnone]

/-- C5: a registered resolution fails with the missing-scope-context error
exactly when the requested key is task-scoped and no task scope is active;
and it never fails with the thread-local missing-context error (the thread
registry is created lazily on first use). -/
theorem c5_ctx_missing_iff (l : ScopeLayer) (ty : TypeInfo) (sd : ServiceDescriptior)
    (sc : Scope) (c : Ctx)
    (hscope : lookupTy l.scopes ty = some ⟨ty, sc⟩)
    (hsvc : lookupTy l.service_layer.services ty = some sd)
    (hty : sd.ty = ty) (hclean : FactoryClean sd) :
    ((∃ t, (l.get ty c).1 = .err (.TaskLocalContextNotInitialized t)) ↔
      ((∃ T, sc = Scope.TaskLocal T) ∧ c.taskCtx = none)) ∧
    (∀ t, (l.get ty c).1 ≠ .err (.ThreadLocalContextNotInitialized t)) := by
  constructor
  · constructor
    · rintro ⟨t, hres⟩
      by_contra hrhs
      have hns : (∃ T, sc = Scope.TaskLocal T) → c.taskCtx ≠ none := by
        intro hA hB
        exact hrhs ⟨hA, hB⟩
      have := scopeGet_err_clean l ty sd sc c hscope hsvc hty hclean hns _ hres
      simp [errCtxMissing] at this
    · rintro ⟨⟨T, rfl⟩, hnone⟩
      exact ⟨ty, scopeGet_taskMissing l ty sd T c hscope hsvc hty hnone⟩
  · intro t hres
    by_cases hcase : (∃ T, sc = Scope.TaskLocal T) ∧ c.taskCtx = none
    · rcases hcase with ⟨⟨T, rfl⟩, hnone⟩
      rw [scopeGet_taskMissing l ty sd T c hscope hsvc hty hnone] at hres
      simp at hres
    · have hns : (∃ T, sc = Scope.TaskLocal T) → c.taskCtx ≠ none := by
        intro hA hB
        exact hcase ⟨hA, hB⟩
      have := scopeGet_err_clean l ty sd sc c hscope hsvc hty hclean hns _ hres
      simp [errCtxMissing] at this

/-- C5 witness: on a concrete task-local container, resolving with no active
task scope yields the missing-context error, and the thread-local
missing-context error never appears. -/
theorem c5_ctx_missing_iff_witness :
    ((∃ t, (slTask.get tyA Ctx.init).1 = .err (.TaskLocalContextNotInitialized t)) ↔
      ((∃ T, Scope.TaskLocal tyA = Scope.TaskLocal T) ∧ Ctx.init.taskCtx = none)) ∧
    (∀ t, (slTask.get tyA Ctx.init).1 ≠ .err (.ThreadLocalContextNotInitialized t)) :=
  c5_ctx_missing_iff slTask tyA ⟨tyA, fun c => (.ok (.ref 3), c)⟩ (.TaskLocal tyA)
    Ctx.init (by decide) rfl rfl (fun c e he => by simp at he)

/-! ### C6 — resolve-all returns every entry in registration order -/

/-- The source loop agrees with the accumulator-style spec description, up
to the pending accumulator prefix. -/
theorem resolveAllLoop_go (ty : TypeInfo) (ds : List MappingDescriptor) :
    ∀ (acc : List BoxedService) (l : ScopeLayer) (c : Ctx),
      resolveAllSpecGo ty ds acc l c =
        match MappingLayer.resolveAllLoop ty ds l c with
        | (.ok vs, l2, c2) => (.ok (acc.reverse ++ vs), l2, c2)
        | (.err e, l2, c2) => (.err e, l2, c2)
        | (.fatal m, l2, c2) => (.fatal m, l2, c2) := by
  induction ds with
  | nil => intro acc l c; simp [resolveAllSpecGo, MappingLayer.resolveAllLoop]
  | cons d rest ih =>
    intro acc l c
    simp only [resolveAllSpecGo, MappingLayer.resolveAllLoop]
    rcases hstep : MappingLayer.resolveEntry l ty d c with ⟨r, l1, c1⟩
    cases r with
    | ok v =>
      simp only [ih (v :: acc) l1 c1]
      rcases hrest : MappingLayer.resolveAllLoop ty rest l1 c1 with ⟨r2, l2, c2⟩
      cases r2 <;> simp
    | err e => simp
    | fatal m => simp

/-- When the loop succeeds it returns one value per entry. -/
theorem resolveAllLoop_length (ty : TypeInfo) (ds : List MappingDescriptor) :
    ∀ (l : ScopeLayer) (c : Ctx) (vs : List BoxedService),
      (MappingLayer.resolveAllLoop ty ds l c).1 = .ok vs → vs.length = ds.length := by
  induction ds with
  | nil =>
    intro l c vs h
    simp [MappingLayer.resolveAllLoop] at h
    simp [← h]
  | cons d rest ih =>
    intro l c vs h
    simp only [MappingLayer.resolveAllLoop] at h
    rcases hstep : MappingLayer.resolveEntry l ty d c with ⟨r, l1, c1⟩
    rw [hstep] at h
    cases r with
    | ok v =>
      simp only at h
      rcases hrest : MappingLayer.resolveAllLoop ty rest l1 c1 with ⟨r2, l2, c2⟩
      rw [hrest] at h
      cases r2 with
      | ok vs2 =>
        simp at h
        subst h
        simp [ih l1 c1 vs2 (by rw [hrest])]
      | err e => simp at h
      | fatal m => simp at h
    | err e => simp at h
    | fatal m => simp at h

/-- C6: for a destination key with registered entries, `resolve_all_raw`
behaves exactly like the spec-side description — every entry under the key
is resolved through its own source key in registration order, the first
failure aborts the call with that failure — and on success it returns one
converted value per registered entry. -/
theorem c6_resolve_all (ml : MappingLayer) (ty : TypeInfo)
    (entries : List MappingDescriptor) (c : Ctx)
    (h : lookupTy ml.mappings ty = some entries) :
    (ml.resolve_all_raw ty c =
      (match resolveAllSpec ty entries ml.scope_layer c with
       | (r, sl1, c1) => (r, { ml with scope_layer := sl1 }, c1))) ∧
    (∀ vs, (ml.resolve_all_raw ty c).1 = .ok vs → vs.length = entries.length) := by
  constructor
  · simp only [MappingLayer.resolve_all_raw, h, resolveAllSpec,
      resolveAllLoop_go ty entries [] ml.scope_layer c]
    rcases hloop : MappingLayer.resolveAllLoop ty entries ml.scope_layer c with ⟨r, l2, c2⟩
    cases r <;> simp
  · intro vs hvs
    simp only [MappingLayer.resolve_all_raw, h] at hvs
    rcases hloop : MappingLayer.resolveAllLoop ty entries ml.scope_layer c with ⟨r, l2, c2⟩
    rw [hloop] at hvs
    cases r with
    | ok vs2 =>
      simp at hvs
      subst hvs
      exact resolveAllLoop_length ty entries ml.scope_layer c vs2 (by rw [hloop])
    | err e => simp at hvs
    | fatal m => simp at hvs

/-- C6 witness: resolve-all on the concrete identity mapping of `tyA`. -/
theorem c6_resolve_all_witness :
    (mlA.resolve_all_raw tyA Ctx.init =
      (match resolveAllSpec tyA [MappingDescriptor.new tyA tyA (fun x => .ok x)]
          mlA.scope_layer Ctx.init with
       | (r, sl1, c1) => (r, { mlA with scope_layer := sl1 }, c1))) ∧
    (∀ vs, (mlA.resolve_all_raw tyA Ctx.init).1 = .ok vs → vs.length = 1) :=
  have h := c6_resolve_all mlA tyA
    [MappingDescriptor.new tyA tyA (fun x => .ok x)] Ctx.init rfl
  ⟨h.1, fun vs hvs => h.2 vs hvs⟩

/-! ### C7 — single resolve uses the first registered entry -/

/-- C7: `resolve_raw` on a destination key with entries `d :: rest` is
exactly the resolution of the first entry `d` (source resolved through the
Scope Layer, converter applied); the later entries are never consulted —
any two mapping layers sharing a scope layer and the same first entry give
the same outcome and context. -/
theorem c7_resolve_uses_first (ml ml' : MappingLayer) (ty : TypeInfo)
    (d : MappingDescriptor) (rest rest' : List MappingDescriptor) (c : Ctx)
    (hshare : ml'.scope_layer = ml.scope_layer)
    (h1 : lookupTy ml.mappings ty = some (d :: rest))
    (h2 : lookupTy ml'.mappings ty = some (d :: rest')) :
    (ml.resolve_raw ty c =
      (match MappingLayer.resolveEntry ml.scope_layer ty d c with
       | (r, sl1, c1) => (r, { ml with scope_layer := sl1 }, c1))) ∧
    ((ml.resolve_raw ty c).1 = (ml'.resolve_raw ty c).1) ∧
    ((ml.resolve_raw ty c).2.2 = (ml'.resolve_raw ty c).2.2) := by
  simp only [MappingLayer.resolve_raw, h1, h2, hshare, List.head?]
  rcases hstep : MappingLayer.resolveEntry ml.scope_layer ty d c with ⟨r, sl1, c1⟩
  simp

/-- C7 witness: on a concrete container with two mappings under `tyB`,
single resolve uses the first and ignores the second. -/
theorem c7_resolve_uses_first_witness :
    (mlTwo.resolve_raw tyB Ctx.init =
      (match MappingLayer.resolveEntry mlTwo.scope_layer tyB
          (MappingDescriptor.new tyA tyB mapperOne) Ctx.init with
       | (r, sl1, c1) => (r, { mlTwo with scope_layer := sl1 }, c1))) ∧
    ((mlTwo.resolve_raw tyB Ctx.init).1 = (mlOne.resolve_raw tyB Ctx.init).1) ∧
    ((mlTwo.resolve_raw tyB Ctx.init).2.2 = (mlOne.resolve_raw tyB Ctx.init).2.2) :=
  c7_resolve_uses_first mlTwo mlOne tyB (MappingDescriptor.new tyA tyB mapperOne)
    [MappingDescriptor.new tyA tyB mapperTwo] [] Ctx.init rfl rfl rfl

/-! ### C10 — re-registering a mapping appends, resolve still uses the first -/

/-- `add_mapping` appends the new entry after any existing entries under the
destination key. -/
theorem lookupTy_addMapping (m : List (TypeInfo × List MappingDescriptor))
    (src dst : TypeInfo) (f : Value → Except ServiceBuildError Value) :
    lookupTy (addMapping m src dst f) dst =
      some ((lookupTy m dst).getD [] ++ [MappingDescriptor.new src dst f]) := by
  cases h : lookupTy m dst <;> simp [addMapping, h, lookupTy_insertTy_self]

/-- C10: registering a second mapping `src → dst` appends after the existing
entries under `dst` (shown for an arbitrary prior builder `b2`); and when
the two mappings are the only entries, single resolve after the second
registration behaves exactly as it did with only the first mapping
registered, while resolve-all yields the values of both entries in
registration order. -/
theorem c10_second_mapping_appends (b b2 : SimpleDiBuilder) (src dst : TypeInfo)
    (m1 m2 : Value → Except ServiceBuildError Value) (c : Ctx)
    (hnone : lookupTy b.mappings dst = none) :
    (lookupTy ((b2.map_as src dst m1).map_as src dst m2).mappings dst =
      some ((lookupTy b2.mappings dst).getD [] ++
        [MappingDescriptor.new src dst m1, MappingDescriptor.new src dst m2])) ∧
    ((((b.map_as src dst m1).map_as src dst m2).build.resolve_raw dst c).1 =
      ((b.map_as src dst m1).build.resolve_raw dst c).1) ∧
    ((((b.map_as src dst m1).map_as src dst m2).build.resolve_raw dst c).2.2 =
      ((b.map_as src dst m1).build.resolve_raw dst c).2.2) ∧
    (∀ v1 v2 sl1 c1 sl2 c2,
      MappingLayer.resolveEntry
          ((b.map_as src dst m1).map_as src dst m2).build.scope_layer dst
          (MappingDescriptor.new src dst m1) c = (.ok v1, sl1, c1) →
      MappingLayer.resolveEntry sl1 dst (MappingDescriptor.new src dst m2) c1
          = (.ok v2, sl2, c2) →
      ((((b.map_as src dst m1).map_as src dst m2).build.resolve_all_raw dst c).1
        = .ok [v1, v2])) := by
  have hb1 : lookupTy (b.map_as src dst m1).mappings dst
      = some [MappingDescriptor.new src dst m1] := by
    simp [SimpleDiBuilder.map_as, lookupTy_addMapping, hnone]
  have hb2 : lookupTy ((b.map_as src dst m1).map_as src dst m2).mappings dst
      = some [MappingDescriptor.new src dst m1, MappingDescriptor.new src dst m2] := by
    simp [SimpleDiBuilder.map_as, lookupTy_addMapping, hnone]
  refine ⟨?_, ?_, ?_, ?_⟩
  · simp [SimpleDiBuilder.map_as, lookupTy_addMapping]
  · simp only [MappingLayer.resolve_raw, SimpleDiBuilder.build] at *
    simp only [hb1, hb2, List.head?]
    rcases hstep : MappingLayer.resolveEntry
      ⟨⟨b.services⟩, b.scopes⟩ dst (MappingDescriptor.new src dst m1) c with ⟨r, sl1, c1⟩
    simp [SimpleDiBuilder.map_as, hstep]
  · simp only [MappingLayer.resolve_raw, SimpleDiBuilder.build] at *
    simp only [hb1, hb2, List.head?]
    rcases hstep : MappingLayer.resolveEntry
      ⟨⟨b.services⟩, b.scopes⟩ dst (MappingDescriptor.new src dst m1) c with ⟨r, sl1, c1⟩
    simp [SimpleDiBuilder.map_as, hstep]
  · intro v1 v2 sl1 c1 sl2 c2 hs1 hs2
    have hb2b : lookupTy ((b.map_as src dst m1).map_as src dst m2).build.mappings dst
        = some [MappingDescriptor.new src dst m1, MappingDescriptor.new src dst m2] := hb2
    simp only [MappingLayer.resolve_all_raw, hb2b, MappingLayer.resolveAllLoop]
    rw [hs1]
    simp only [MappingLayer.resolveAllLoop]
    rw [hs2]

/-- C10 witness: the append behaviour on a builder whose destination key
already has an entry, and the resolve behaviours on a concrete container. -/
theorem c10_second_mapping_appends_witness :
    (lookupTy ((bB.map_as tyA tyB mapperOne).map_as tyA tyB mapperTwo).mappings tyB =
      some ((lookupTy bB.mappings tyB).getD [] ++
        [MappingDescriptor.new tyA tyB mapperOne,
         MappingDescriptor.new tyA tyB mapperTwo])) ∧
    ((((bA.map_as tyA tyB mapperOne).map_as tyA tyB mapperTwo).build.resolve_raw
        tyB Ctx.init).1 =
      ((bA.map_as tyA tyB mapperOne).build.resolve_raw tyB Ctx.init).1) ∧
    ((((bA.map_as tyA tyB mapperOne).map_as tyA tyB mapperTwo).build.resolve_raw
        tyB Ctx.init).2.2 =
      ((bA.map_as tyA tyB mapperOne).build.resolve_raw tyB Ctx.init).2.2) ∧
    (∀ v1 v2 sl1 c1 sl2 c2,
      MappingLayer.resolveEntry
          ((bA.map_as tyA tyB mapperOne).map_as tyA tyB mapperTwo).build.scope_layer
          tyB (MappingDescriptor.new tyA tyB mapperOne) Ctx.init = (.ok v1, sl1, c1) →
      MappingLayer.resolveEntry sl1 tyB (MappingDescriptor.new tyA tyB mapperTwo) c1
          = (.ok v2, sl2, c2) →
      ((((bA.map_as tyA tyB mapperOne).map_as tyA tyB mapperTwo).build.resolve_all_raw
          tyB Ctx.init).1 = .ok [v1, v2])) :=
  c10_second_mapping_appends bA bB tyA tyB mapperOne mapperTwo Ctx.init rfl

/-! ### C8 — auto identity mapping -/

/-- A successful factory build is boxed at the registered type. -/
theorem sdBuild_ok_ty (sd : ServiceDescriptior) (c : Ctx) (r : BoxedService)
    (h : (sd.build c).1 = .ok r) : r.ty = sd.ty := by
  simp only [ServiceDescriptior.build] at h
  rcases hr : sd.run { c with calls := c.calls ++ [sd.ty] } with ⟨r2, c2⟩
  rw [hr] at h
  cases r2 with
  | error e1 => simp at h
  | ok v =>
    simp at h
    subst h
    rfl

/-- A successful unsync conversion is boxed at the requested type. -/
theorem unsyncerFor_ok_ty (T : TypeInfo) (s : SyncBoxedService) (r : BoxedService)
    (h : unsyncerFor T s = .ok r) : r.ty = T := by
  unfold unsyncerFor at h
  rcases hu : s.unbox T with e1 | v <;> rw [hu] at h <;> simp at h
  subst h
  rfl

/-- A successful thread-local split hands out a copy boxed at the requested
type. -/
theorem threadSplitterFor_ok_ty (T : TypeInfo) (s : BoxedService) (a b : BoxedService)
    (h : threadSplitterFor T s = .ok (a, b)) : b.ty = T := by
  unfold threadSplitterFor at h
  rcases hu : s.unbox T with e1 | v <;> rw [hu] at h <;> simp at h
  rw [← h.2]
  rfl

/-- A pending singleton that builds successfully returns a copy boxed at
its specialization type. -/
theorem singPendingBuild_ok_ty (T : TypeInfo) (sd : ServiceDescriptior) (c : Ctx)
    (r : BoxedService) (h : ((SingletoneProducer.Pending T).build sd c).1 = .ok r) :
    r.ty = T := by
  simp only [SingletoneProducer.build] at h
  rcases hb : sd.build c with ⟨r2, c1⟩
  rw [hb] at h
  cases r2 with
  | error e1 => simp at h
  | ok service =>
    simp at h
    rcases hs : syncerFor T service with e1 | s1 <;> rw [hs] at h <;> simp at h
    rcases hsp : syncSplitterFor T s1 with e1 | ⟨i1, cp⟩ <;> rw [hsp] at h <;> simp at h
    rcases hu2 : unsyncerFor T cp with e1 | cp1 <;> rw [hu2] at h <;> simp at h
    subst h
    exact unsyncerFor_ok_ty T cp _ hu2

/-- A successful task-local produce returns a copy boxed at the
specialization type, whatever the producer state was. -/
theorem taskProduce_ok_ty (p : TaskLocalProducer) (sd : ServiceDescriptior)
    (T : TypeInfo) (c : Ctx) (r : BoxedService)
    (h : (p.produce sd T c).1 = .ok r) : r.ty = T := by
  cases p with
  | Pending =>
    simp only [TaskLocalProducer.produce] at h
    rcases hb : sd.build c with ⟨r2, c1⟩
    rw [hb] at h
    cases r2 with
    | error e1 => simp at h
    | ok service =>
      simp at h
      rcases hs : syncerFor T service with e1 | s1 <;> rw [hs] at h <;> simp at h
      rcases hsp : syncSplitterFor T s1 with e1 | ⟨i1, cp⟩ <;> rw [hsp] at h <;> simp at h
      rcases hu2 : unsyncerFor T cp with e1 | cp1 <;> rw [hu2] at h <;> simp at h
      subst h
      exact unsyncerFor_ok_ty T cp _ hu2
  | Created inst =>
    simp only [TaskLocalProducer.produce] at h
    rcases hsp : syncSplitterFor T inst with e1 | ⟨i1, cp⟩ <;> rw [hsp] at h <;> simp at h
    rcases hu2 : unsyncerFor T cp with e1 | cp1 <;> rw [hu2] at h <;> simp at h
    subst h
    exact unsyncerFor_ok_ty T cp _ hu2

/-- A successful thread-local produce returns a copy boxed at the
specialization type, whatever the producer state was. -/
theorem threadProduce_ok_ty (p : ThreadLocalProducer) (sd : ServiceDescriptior)
    (T : TypeInfo) (c : Ctx) (r : BoxedService)
    (h : (p.produce sd T c).1 = .ok r) : r.ty = T := by
  cases p with
  | Pending =>
    simp only [ThreadLocalProducer.produce] at h
    rcases hb : sd.build c with ⟨r2, c1⟩
    rw [hb] at h
    cases r2 with
    | error e1 => simp at h
    | ok service =>
      simp at h
      rcases hs : threadSplitterFor T service with e1 | ⟨i1, cp⟩ <;> rw [hs] at h <;>
        simp at h
      subst h
      exact threadSplitterFor_ok_ty T service i1 _ hs
  | Created inst =>
    simp only [ThreadLocalProducer.produce] at h
    rcases hs : threadSplitterFor T inst with e1 | ⟨i1, cp⟩ <;> rw [hs] at h <;> simp at h
    subst h
    exact threadSplitterFor_ok_ty T inst i1 _ hs

/-- A successful `ThreadLocalCtx::get` returns a value boxed at the
requested type. -/
theorem threadCtxGet_ok_ty (ty : TypeInfo) (sd : ServiceDescriptior) (c : Ctx)
    (r : BoxedService) (h : (ThreadLocalCtx.get ty sd c).1 = .ok r) : r.ty = ty := by
  simp only [ThreadLocalCtx.get] at h
  rcases hpr : ((lookupTy c.threadCtx ty).getD .Pending).produce sd ty c with ⟨r0, p1, c1⟩
  rw [hpr] at h
  simp at h
  exact threadProduce_ok_ty _ sd ty c r (by rw [hpr]; simpa using h)

/-- A successful `TaskLocalCtx::get` returns a value boxed at the requested
type. -/
theorem taskCtxGet_ok_ty (ty : TypeInfo) (sd : ServiceDescriptior) (c : Ctx)
    (r : BoxedService) (h : (TaskLocalCtx.get ty sd c).1 = .ok r) : r.ty = ty := by
  rcases hm : c.taskCtx with _ | m
  · simp only [TaskLocalCtx.get, hm] at h
    simp at h
  · simp only [TaskLocalCtx.get, hm] at h
    rcases hpr : ((lookupTy m ty).getD .Pending).produce sd ty c with ⟨r0, p1, c1⟩
    rw [hpr] at h
    simp at h
    exact taskProduce_ok_ty _ sd ty c r (by rw [hpr]; simpa using h)

/-- With only the identity entry under `T` and a scope layer whose
successes are boxed at `T`, resolving through the mapping layer is
observably the same as the scope-layer output: the identity converter
passes the value through unchanged. -/
theorem resolveRaw_identity (ml : MappingLayer) (T : TypeInfo) (c : Ctx)
    (hmap : lookupTy ml.mappings T = some [MappingDescriptor.new T T (fun x => .ok x)])
    (hok : ∀ r, (ml.scope_layer.get T c).1 = .ok r → r.ty = T) :
    ((ml.resolve_raw T c).1 = (ml.scope_layer.get T c).1) ∧
    ((ml.resolve_raw T c).2.2 = (ml.scope_layer.get T c).2.2) := by
  simp only [MappingLayer.resolve_raw, hmap, List.head?, MappingLayer.resolveEntry,
    MappingDescriptor.new]
  rcases hg : ml.scope_layer.get T c with ⟨r, sl1, c1⟩
  cases r with
  | ok service =>
    have hty : service.ty = T := hok service (by rw [hg])
    obtain ⟨sty, sv⟩ := service
    simp only at hty
    subst hty
    simp [MappingDescriptor.mapService, BoxedService.unbox, BoxedService.new]
  | err e => simp
  | fatal m => simp

/-- A transient-registered key's successful resolutions are boxed at the
key. -/
theorem scopeGet_ok_ty_transient (l : ScopeLayer) (T : TypeInfo)
    (sd : ServiceDescriptior) (c : Ctx)
    (hscope : lookupTy l.scopes T = some ⟨T, .Transient⟩)
    (hsvc : lookupTy l.service_layer.services T = some sd)
    (hty : sd.ty = T) :
    ∀ r, (l.get T c).1 = .ok r → r.ty = T := by
  intro r h
  simp only [ScopeLayer.get, ServiceLayer.get, hscope, hsvc, hty] at h
  simp at h
  rcases hb : sd.build c with ⟨r2, c1⟩
  rw [hb] at h
  cases r2 with
  | error e1 => simp at h
  | ok service =>
    simp at h
    subst h
    rw [sdBuild_ok_ty sd c service (by rw [hb])]
    exact hty
/-- A pending-singleton key's successful resolutions are boxed at the key. -/
theorem scopeGet_ok_ty_singleton (l : ScopeLayer) (T : TypeInfo)
    (sd : ServiceDescriptior) (c : Ctx)
    (hscope : lookupTy l.scopes T = some ⟨T, .Singletone (.Pending T)⟩)
    (hsvc : lookupTy l.service_layer.services T = some sd)
    (hty : sd.ty = T) :
    ∀ r, (l.get T c).1 = .ok r → r.ty = T := by
  intro r h
  simp only [ScopeLayer.get, ServiceLayer.get, hscope, hsvc, hty] at h
  simp at h
  rcases hb : (SingletoneProducer.Pending T).build sd c with ⟨r0, s1, c1⟩
  rw [hb] at h
  simp at h
  exact singPendingBuild_ok_ty T sd c r (by rw [hb]; simpa using h)

/-- A task-local key's successful resolutions are boxed at the key. -/
theorem scopeGet_ok_ty_task (l : ScopeLayer) (T : TypeInfo)
    (sd : ServiceDescriptior) (c : Ctx)
    (hscope : lookupTy l.scopes T = some ⟨T, .TaskLocal T⟩)
    (hsvc : lookupTy l.service_layer.services T = some sd)
    (hty : sd.ty = T) :
    ∀ r, (l.get T c).1 = .ok r → r.ty = T := by
  intro r h
  simp only [ScopeLayer.get, ServiceLayer.get, hscope, hsvc, hty] at h
  simp at h
  rcases hg : TaskLocalCtx.get T sd c with ⟨r0, c1⟩
  rw [hg] at h
  simp at h
  exact taskCtxGet_ok_ty T sd c r (by rw [hg]; simpa using h)

/-- A thread-local key's successful resolutions are boxed at the key. -/
theorem scopeGet_ok_ty_thread (l : ScopeLayer) (T : TypeInfo)
    (sd : ServiceDescriptior) (c : Ctx)
    (hscope : lookupTy l.scopes T = some ⟨T, .ThreadLocal T⟩)
    (hsvc : lookupTy l.service_layer.services T = some sd)
    (hty : sd.ty = T) :
    ∀ r, (l.get T c).1 = .ok r → r.ty = T := by
  intro r h
  simp only [ScopeLayer.get, ServiceLayer.get, hscope, hsvc, hty] at h
  simp at h
  rcases hg : ThreadLocalCtx.get T sd c with ⟨r0, c1⟩
  rw [hg] at h
  simp at h
  exact threadCtxGet_ok_ty T sd c r (by rw [hg]; simpa using h)

/-- C8: whichever lifecycle method registers a constructor for `T`, an
identity mapping `T → T` is auto-registered, and resolving `T` through the
mapping layer is observably identical to the scope-layer (lifecycle-applied)
factory output — same outcome, same resulting context. -/
theorem c8_auto_identity (b : SimpleDiBuilder) (k : RegKind) (T : TypeInfo)
    (f : Ctx → Except ServiceBuildError Value × Ctx) (c : Ctx)
    (hnomap : lookupTy b.mappings T = none) :
    (lookupTy (b.register k T f).mappings T
      = some [MappingDescriptor.new T T (fun x => .ok x)]) ∧
    (((b.register k T f).build.resolve_raw T c).1
      = ((b.register k T f).build.scope_layer.get T c).1) ∧
    (((b.register k T f).build.resolve_raw T c).2.2
      = ((b.register k T f).build.scope_layer.get T c).2.2) := by
  have hmap : lookupTy (b.register k T f).mappings T
      = some [MappingDescriptor.new T T (fun x => .ok x)] := by
    cases k <;>
      simp [SimpleDiBuilder.register, SimpleDiBuilder.transient,
        SimpleDiBuilder.singletone, SimpleDiBuilder.task_local,
        SimpleDiBuilder.thread_local, lookupTy_addMapping, hnomap]
  refine ⟨hmap, ?_⟩
  have hok : ∀ r, ((b.register k T f).build.scope_layer.get T c).1 = .ok r → r.ty = T := by
    cases k with
    | transient =>
      exact scopeGet_ok_ty_transient _ T ⟨T, f⟩ c
        (lookupTy_insertTy_self b.scopes T (ServiceScopeDescriptior.transient T))
        (lookupTy_insertTy_self b.services T ⟨T, f⟩) rfl
    | singletone =>
      exact scopeGet_ok_ty_singleton _ T ⟨T, f⟩ c
        (lookupTy_insertTy_self b.scopes T (ServiceScopeDescriptior.singletone T))
        (lookupTy_insertTy_self b.services T ⟨T, f⟩) rfl
    | task_local =>
      exact scopeGet_ok_ty_task _ T ⟨T, f⟩ c
        (lookupTy_insertTy_self b.scopes T (ServiceScopeDescriptior.task_local T))
        (lookupTy_insertTy_self b.services T ⟨T, f⟩) rfl
    | thread_local =>
      exact scopeGet_ok_ty_thread _ T ⟨T, f⟩ c
        (lookupTy_insertTy_self b.scopes T (ServiceScopeDescriptior.thread_local T))
        (lookupTy_insertTy_self b.services T ⟨T, f⟩) rfl
  exact resolveRaw_identity ((b.register k T f).build) T c hmap hok

/-- C8 witness: a fresh singleton registration resolved through the
auto-identity mapping on a concrete container. -/
theorem c8_auto_identity_witness :
    (lookupTy (SimpleDiBuilder.new.register .singletone tyA
        (fun c => (.ok (.ref 7), c))).mappings tyA
      = some [MappingDescriptor.new tyA tyA (fun x => .ok x)]) ∧
    (((SimpleDiBuilder.new.register .singletone tyA
        (fun c => (.ok (.ref 7), c))).build.resolve_raw tyA Ctx.init).1
      = ((SimpleDiBuilder.new.register .singletone tyA
        (fun c => (.ok (.ref 7), c))).build.scope_layer.get tyA Ctx.init).1) ∧
    (((SimpleDiBuilder.new.register .singletone tyA
        (fun c => (.ok (.ref 7), c))).build.resolve_raw tyA Ctx.init).2.2
      = ((SimpleDiBuilder.new.register .singletone tyA
        (fun c => (.ok (.ref 7), c))).build.scope_layer.get tyA Ctx.init).2.2) :=
  c8_auto_identity SimpleDiBuilder.new .singletone tyA
    (fun c => (.ok (.ref 7), c)) Ctx.init rfl
